import Mathlib

/-!
Verification of the E-Commerce REST API (Express + MongoDB).

The repository is a small Express application (`index.js` and a second
variant of the same server) whose endpoints are direct pass-throughs to a
MongoDB collection: CRUD over `customers` and `products`, an `auth`
collection for signup/login, and a handful of aggregation queries
(top products, sales by date range, nearby customers).

This file gives a shallow embedding of the handlers and of the MongoDB
primitives they invoke:

* a collection is a list of documents in insertion order; a document is an
  association list of string keys and scalar values (the top-level fields
  the handlers touch are all scalars or are treated opaquely);
* `findOne` is first-match in collection order, `insertOne` appends,
  `updateOne` with `$set` rewrites the first matching document field by
  field, `deleteOne` removes the first matching document;
* the aggregation pipelines (`$unwind` / `$match` / `$group` / `$sort` /
  `$limit`) are modelled stage by stage over typed records, with `$group`
  producing one pair per distinct key (first-occurrence order; MongoDB
  leaves the group order unspecified, the subsequent `$sort` pins it) and
  `$sort` an insertion sort on the stated key;
* JavaScript's `new Date(string)` on the `YYYY-MM-DD` strings this API
  uses, `parseInt` and the serialization of an Invalid Date as epoch are
  modelled explicitly.

Monetary amounts (`total`, `price`) are modelled as rationals and
quantities as integers.
-/

namespace ECom

/-! ### Documents and MongoDB primitives -/

/-- Scalar field value of a stored document.  Fields whose structure no
CRUD handler inspects (embedded arrays, points) are representable as any
of these constructors; the handlers only ever compare values for equality
or copy them verbatim. -/
inductive Val where
  | str : String → Val
  | num : Rat → Val
  | bool : Bool → Val
  | null : Val
deriving DecidableEq

/-- A document: top-level fields in order, as produced by `body-parser`. -/
abbrev Doc := List (String × Val)

/-- A collection: documents in insertion order (MongoDB natural order). -/
abbrev Coll := List Doc

/-- Value of the top-level field `k` of `d` (first occurrence). -/
def getField (d : Doc) (k : String) : Option Val :=
  (d.find? (fun p => p.1 = k)).map (·.2)

/-- The filter `{ name: <n> }` used by the by-name routes. -/
def isNamed (n : String) (d : Doc) : Prop :=
  getField d "name" = some (.str n)

instance (n : String) (d : Doc) : Decidable (isNamed n d) := by
  unfold isNamed; infer_instance

/-- MongoDB `findOne({ name: n })`: first document in natural order whose
`name` field equals `n`. -/
def findOneByName (c : Coll) (n : String) : Option Doc :=
  c.find? (fun d => decide (isNamed n d))

/-- MongoDB `$set` of a single field: overwrite the first occurrence of
the key, or append the field if the key is absent. -/
def setField : Doc → String → Val → Doc
  | [], k, v => [(k, v)]
  | (k', v') :: rest, k, v =>
    if k' = k then (k, v) :: rest else (k', v') :: setField rest k v

/-- MongoDB `updateOne(_, { $set: payload })` applied to one document:
every field of the payload overwrites the field of the same name, fields
not named in the payload are untouched. -/
def applySet (payload : Doc) (d : Doc) : Doc :=
  payload.foldl (fun acc p => setField acc p.1 p.2) d

/-- MongoDB `updateOne({ name: n }, _)` traversal: rewrite the first
matching document with `f`, leave the rest untouched; the boolean is
`matchedCount > 0`. -/
def updateFirstNamed (n : String) (f : Doc → Doc) : Coll → Coll × Bool
  | [] => ([], false)
  | d :: c =>
    if isNamed n d then (f d :: c, true)
    else
      let r := updateFirstNamed n f c
      (d :: r.1, r.2)

/-- MongoDB `deleteOne({ name: n })`: remove the first matching document.
Returns the new collection and the `deletedCount`. -/
def deleteOneByName : Coll → String → Coll × Nat
  | [], _ => ([], 0)
  | d :: c, n =>
    if isNamed n d then (c, 1)
    else
      let r := deleteOneByName c n
      (d :: r.1, r.2)

/-! ### HTTP responses and the CRUD handlers

Each handler is a function from the stored collection (and the request)
to an HTTP response, paired with the collection after the call where the
handler writes.  Store connectivity failures (the `catch` → 500 branch)
are outside the model: the model is the handler's behaviour when every
database call succeeds. -/

/-- Body of a JSON response, as the handlers build them. -/
inductive Body where
  /-- `res.json(<documents>)` — a list result. -/
  | docs : List Doc → Body
  /-- `res.json(<document>)` — a single-document result. -/
  | doc : Doc → Body
  /-- `res.json({ message: m })`. -/
  | msg : String → Body
  /-- `res.json({ error: e })`. -/
  | err : String → Body
  /-- `res.json(<insertOne result>)` — `{ acknowledged, insertedId }`. -/
  | insertResult : Body
deriving DecidableEq

/-- An HTTP response: status code and JSON body. -/
structure Resp where
  status : Nat
  body : Body
deriving DecidableEq

/-- `POST /customers` of `index.js` (lines 271-279): destructures `name`
from the body but never checks it — `insertOne(req.body)` runs
unconditionally and the handler answers 201. -/
def postCustomersIndex (c : Coll) (reqBody : Doc) : Resp × Coll :=
  (⟨201, .insertResult⟩, c ++ [reqBody])

/-- The duplicate-checked create shared by `POST /products` (both
variants, `index.js` lines 495-509) and `POST /customers` of the second
variant (`part_000` lines 40-52): `findOne({ name })` on the body's
`name` field, 400 when a document exists, otherwise `insertOne` and
201. -/
def postChecked (conflictMsg : String) (c : Coll) (reqBody : Doc) :
    Resp × Coll :=
  match c.find? (fun d => getField d "name" == getField reqBody "name") with
  | some _ => (⟨400, .err conflictMsg⟩, c)
  | none => (⟨201, .insertResult⟩, c ++ [reqBody])

/-- `POST /products`: checked create with the product conflict message. -/
def postProducts (c : Coll) (reqBody : Doc) : Resp × Coll :=
  postChecked "Product with this name already exists" c reqBody

/-- `POST /customers` of the second variant: checked create with the
customer conflict message. -/
def postCustomersV2 (c : Coll) (reqBody : Doc) : Resp × Coll :=
  postChecked "Customer with this name already exists" c reqBody

/-- `GET /products/:name` and `GET /customers/:name`:
`findOne({ name })`, 200 with the document or 404 with the given
not-found message. -/
def getByName (notFoundMsg : String) (c : Coll) (n : String) : Resp :=
  match findOneByName c n with
  | some d => ⟨200, .doc d⟩
  | none => ⟨404, .msg notFoundMsg⟩

/-- `PUT /products/:name` and `PUT /customers/:name`:
`updateOne({ name }, { $set: req.body })`; 200 when `matchedCount > 0`,
404 otherwise.  `updateOne` rewrites only the first matching document. -/
def updateByName (okMsg notFoundMsg : String) (c : Coll) (n : String)
    (reqBody : Doc) : Resp × Coll :=
  let r := updateFirstNamed n (applySet reqBody) c
  if r.2 then (⟨200, .msg okMsg⟩, r.1)
  else (⟨404, .msg notFoundMsg⟩, r.1)

/-- `DELETE /products/:name` and `DELETE /customers/:name`:
`deleteOne({ name })`; 200 when `deletedCount > 0`, 404 otherwise. -/
def deleteByName (okMsg notFoundMsg : String) (c : Coll) (n : String) :
    Resp × Coll :=
  let r := deleteOneByName c n
  if r.2 > 0 then (⟨200, .msg okMsg⟩, r.1)
  else (⟨404, .msg notFoundMsg⟩, r.1)

/-! ### Authentication -/

/-- `POST /auth/login` (`index.js` lines 141-156), parameterized by the
bcrypt comparison: `findOne({ username })`, then
`bcrypt.compare(password, user.password)`.  Both failure branches — user
absent, or hash comparison false — answer 400 with the same body.  When
the stored document lacks a string `password` field, `bcrypt.compare`
rejects and the `catch` answers 500. -/
def login (compare : String → String → Bool) (auth : Coll)
    (username password : String) : Resp :=
  match auth.find? (fun d => getField d "username" == some (.str username)) with
  | none => ⟨400, .err "Invalid username or password"⟩
  | some user =>
    match getField user "password" with
    | some (.str h) =>
      if compare password h then ⟨200, .msg "Login successful"⟩
      else ⟨400, .err "Invalid username or password"⟩
    | _ => ⟨500, .err "data and hash arguments required"⟩

/-! ### JavaScript number and date primitives -/

/-- Longest prefix of decimal digits of a character list. -/
def digitsPrefix : List Char → List Char
  | [] => []
  | c :: cs => if c.isDigit then c :: digitsPrefix cs else []

/-- Value of a list of decimal digits, most significant first. -/
def digitsToNat (ds : List Char) : Nat :=
  ds.foldl (fun acc c => 10 * acc + (c.toNat - 48)) 0

/-- The digit-reading phase of `parseInt`: value of the longest digit
prefix, or `none` (`NaN`) when there is no digit to read. -/
def jsParseIntDigits (cs : List Char) : Option Nat :=
  let ds := digitsPrefix cs
  if ds.isEmpty then none else some (digitsToNat ds)

/-- The sign-handling phase of `parseInt`, applied after whitespace is
skipped. -/
def jsParseIntSigned : List Char → Option Int
  | [] => none
  | c :: rest =>
    if c = '-' then (jsParseIntDigits rest).map (fun n => -(n : Int))
    else if c = '+' then (jsParseIntDigits rest).map (fun n => (n : Int))
    else (jsParseIntDigits (c :: rest)).map (fun n => (n : Int))

/-- JavaScript `parseInt(s)` restricted to base 10 (no `0x` strings occur
among this API's inputs): skip leading whitespace, read an optional sign
and then the longest prefix of decimal digits, ignoring the rest of the
string; `none` models `NaN` (no digits found). -/
def jsParseInt (s : String) : Option Int :=
  jsParseIntSigned (s.data.dropWhile (fun c => c.isWhitespace))

/-- Days since the Unix epoch of the civil date `(y, m, d)` in the
proleptic Gregorian calendar (Howard Hinnant's `days_from_civil`). -/
def daysFromCivil (y m d : Int) : Int :=
  let yc := y - (if m ≤ 2 then 1 else 0)
  let era := Int.fdiv yc 400
  let yoe := yc - era * 400
  let mp := m + (if 2 < m then -3 else 9)
  let doy := Int.fdiv (153 * mp + 2) 5 + d - 1
  let doe := yoe * 365 + Int.fdiv yoe 4 - Int.fdiv yoe 100 + doy
  era * 146097 + doe - 719468

/-- Civil date `(y, m, d)` of a count of days since the Unix epoch
(Howard Hinnant's `civil_from_days`). -/
def civilFromDays (z0 : Int) : Int × Int × Int :=
  let z := z0 + 719468
  let era := Int.fdiv z 146097
  let doe := z - era * 146097
  let yoe :=
    Int.fdiv (doe - Int.fdiv doe 1460 + Int.fdiv doe 36524 - Int.fdiv doe 146096) 365
  let y := yoe + era * 400
  let doy := doe - (365 * yoe + Int.fdiv yoe 4 - Int.fdiv yoe 100)
  let mp := Int.fdiv (5 * doy + 2) 153
  let d := doy - Int.fdiv (153 * mp + 2) 5 + 1
  let m := mp + (if mp < 10 then 3 else -9)
  (y + (if m ≤ 2 then 1 else 0), m, d)

/-- Zero-padded decimal rendering of a nonnegative integer, `w` digits
wide (shorter renderings are left-padded with zeros). -/
def padNum (w : Nat) (n : Int) : String :=
  let s := toString n.toNat
  ⟨List.replicate (w - s.length) '0' ++ s.data⟩

/-- Milliseconds per UTC day. -/
def msPerDay : Int := 86400000

/-- MongoDB `$dateToString: { format: "%Y-%m-%d" }` (default UTC
timezone): the calendar day of the instant, four-digit year, two-digit
month and day, dash-separated.  Flooring division buckets instants before
the epoch into their correct UTC day as well. -/
def formatDay (ms : Int) : String :=
  let c := civilFromDays (Int.fdiv ms msPerDay)
  padNum 4 c.1 ++ "-" ++ padNum 2 c.2.1 ++ "-" ++ padNum 2 c.2.2

/-- Day count of month `m` of year `y`, proleptic Gregorian. -/
def daysInMonth (y m : Int) : Int :=
  if m = 2 then
    if Int.emod y 4 = 0 ∧ (Int.emod y 100 ≠ 0 ∨ Int.emod y 400 = 0) then 29
    else 28
  else if m = 4 ∨ m = 6 ∨ m = 9 ∨ m = 11 then 30
  else 31

/-- Split a character list at every dash (the groups of `YYYY-MM-DD`). -/
def splitOnDash : List Char → List (List Char)
  | [] => [[]]
  | c :: rest =>
    if c = '-' then [] :: splitOnDash rest
    else
      match splitOnDash rest with
      | g :: gs => (c :: g) :: gs
      | [] => [[c]]

/-- JavaScript `new Date(s)` on the date-only strings this API's query
parameters carry (`YYYY-MM-DD`, the ECMA-262 date-time string format):
the UTC midnight of the named day in milliseconds since the epoch;
`none` models an Invalid Date (unparseable text or out-of-range
components). -/
def parseDate (s : String) : Option Int :=
  match splitOnDash s.data with
  | [ys, ms, ds] =>
    if ys.length = 4 ∧ ms.length = 2 ∧ ds.length = 2 ∧
        ys.all Char.isDigit ∧ ms.all Char.isDigit ∧
        ds.all Char.isDigit then
      let y : Int := (digitsToNat ys : Nat)
      let m : Int := (digitsToNat ms : Nat)
      let d : Int := (digitsToNat ds : Nat)
      if 1 ≤ m ∧ m ≤ 12 ∧ 1 ≤ d ∧ d ≤ daysInMonth y m then
        some (daysFromCivil y m d * msPerDay)
      else none
    else none
  | _ => none

/-- The millisecond value the MongoDB driver serializes for
`new Date(s)`: the parsed instant, or 0 for an Invalid Date — BSON stores
`getTime()` through `Long.fromNumber`, and `Long.fromNumber(NaN)` is 0,
the epoch. -/
def jsDateMs (s : String) : Int := (parseDate s).getD 0

/-! ### Aggregation stages -/

/-- Keys of `xs` under `f`, in order of first occurrence and without
duplicates: the distinct `_id` values a `$group` stage emits.  MongoDB
leaves the order of groups unspecified; first-occurrence order is one
admissible order, and every pipeline below pins the final order with an
explicit `$sort` anyway. -/
def firstKeys [DecidableEq κ] (f : α → κ) : List α → List κ
  | [] => []
  | a :: l => f a :: (firstKeys f l).filter (fun k => decide (k ≠ f a))

/-- Sum of `g` over the elements of `xs` with key `k`: the `$sum`
accumulator of one group. -/
def sumOver [DecidableEq κ] [Add β] [Zero β] (f : α → κ) (g : α → β)
    (xs : List α) (k : κ) : β :=
  ((xs.filter (fun a => decide (f a = k))).map g).sum

/-- A `$group` stage with `_id: f` and one `$sum: g` accumulator. -/
def groupSum [DecidableEq κ] [Add β] [Zero β] (f : α → κ) (g : α → β)
    (xs : List α) : List (κ × β) :=
  (firstKeys f xs).map (fun k => (k, sumOver f g xs k))

/-- Insert `a` into `l` in front of the first element it `le`-precedes. -/
def insertLe (le : α → α → Bool) (a : α) : List α → List α
  | [] => [a]
  | b :: l => if le a b then a :: b :: l else b :: insertLe le a l

/-- A `$sort` stage: insertion sort by the boolean comparison `le`. -/
def sortLe (le : α → α → Bool) : List α → List α
  | [] => []
  | a :: l => insertLe le a (sortLe le l)

/-! ### Analytics records and pipelines -/

/-- One embedded product line of a stored customer record
(`products: [{ name, quantity, price }]`). -/
structure Line where
  name : String
  quantity : Int
  price : Rat
deriving DecidableEq

/-- A stored customer record as the analytics pipelines read it:
purchase date (a BSON date, milliseconds since the epoch), precomputed
order `total`, and the embedded product lines. -/
structure Customer where
  name : String
  total : Rat
  date : Int
  products : List Line
deriving DecidableEq

/-- All product lines of the collection in order: the `$unwind` stage. -/
def allLines (cs : List Customer) : List Line :=
  (cs.map Customer.products).flatten

/-- Total quantity sold of the product named `n` across every embedded
line of the collection. -/
def totalQty (cs : List Customer) (n : String) : Int :=
  sumOver Line.name Line.quantity (allLines cs) n

/-- `GET /analytics/top-products` (`index.js` lines 769-789, identically
`part_000` lines 179-191): `$unwind: products`, `$group` by
`products.name` summing `products.quantity` into `totalSold`,
`$sort: { totalSold: -1 }`, `$limit: 5`. -/
def topProducts (cs : List Customer) : List (String × Int) :=
  (sortLe (fun x y => decide (y.2 ≤ x.2))
    (groupSum Line.name Line.quantity (allLines cs))).take 5

/-- The `$match` / `$group` / `$sort` pipeline of `GET /analytics/sales`
(`index.js` lines 840-860) once the two dates are in hand: keep records
with `sms ≤ date ≤ ems`, group by the `%Y-%m-%d` rendering of `date`
summing `total` into `totalSales`, sort ascending by the `_id` string. -/
def salesByDateRange (cs : List Customer) (sms ems : Int) :
    List (String × Rat) :=
  sortLe (fun x y => decide (x.1 ≤ y.1))
    (groupSum (fun c => formatDay c.date) Customer.total
      (cs.filter (fun c => decide (sms ≤ c.date ∧ c.date ≤ ems))))

/-- Independent restatement of one day's bucket: the sum of the `total`
fields of the records whose date lies in the closed interval and falls
on `day`. -/
def dayTotal (cs : List Customer) (sms ems : Int) (day : String) : Rat :=
  (((cs.filter (fun c => decide (sms ≤ c.date ∧ c.date ≤ ems))).filter
      (fun c => decide (formatDay c.date = day))).map Customer.total).sum

/-- Response of `GET /analytics/sales`: status and the grouped rows. -/
structure SalesResp where
  status : Nat
  rows : List (String × Rat)
deriving DecidableEq

/-- `GET /analytics/sales` handler: `start` and `end` go through
`new Date` with no guard whatsoever, and the pipeline runs; the handler
has no validation branch, so (store failures aside) it always answers
200 with the grouped rows — an Invalid Date is serialized as the
epoch. -/
def analyticsSales (cs : List Customer) (start endp : String) : SalesResp :=
  ⟨200, salesByDateRange cs (jsDateMs start) (jsDateMs endp)⟩

/-! ### Geo query and routing of `GET /customers/nearby`

The second variant (`part_000`) stores customer locations under a
2dsphere index and queries them with `$near`.  The spherical distance
itself lives in the database engine, so the model is parameterized by
the metric; every claim below holds for an arbitrary metric, and
concrete instances use a squared-Euclidean stand-in. -/

/-- A customer as the geo endpoints see it: `name` and a GeoJSON point
(longitude, latitude), coordinates as exact rationals. -/
structure GeoCustomer where
  name : String
  location : Rat × Rat
deriving DecidableEq

/-- `$near` semantics: the documents within `maxDist` of `center`,
ordered by increasing distance under the given metric. -/
def nearbyFind (dist : Rat × Rat → Rat × Rat → Rat)
    (c : List GeoCustomer) (center : Rat × Rat) (maxDist : Rat) :
    List GeoCustomer :=
  sortLe (fun x y => decide (dist center x.location ≤ dist center y.location))
    (c.filter (fun x => decide (dist center x.location ≤ maxDist)))

/-- Squared Euclidean distance, the concrete metric of the examples. -/
def sqDist (p q : Rat × Rat) : Rat :=
  (p.1 - q.1) * (p.1 - q.1) + (p.2 - q.2) * (p.2 - q.2)

/-- Ten to a natural power, as an exact rational. -/
def tenPow : Nat → Rat
  | 0 => 1
  | Nat.succ n => 10 * tenPow n

/-- JavaScript `parseFloat(s)` on plain decimal notation (the form the
coordinate query parameters take): optional sign, integer digits,
optional fraction; `none` models `NaN`. -/
def jsParseFloat (s : String) : Option Rat :=
  let core := fun (cs : List Char) =>
    let ip := digitsPrefix cs
    match cs.drop ip.length with
    | '.' :: rest =>
      let fp := digitsPrefix rest
      if ip.isEmpty ∧ fp.isEmpty then none
      else
        some ((digitsToNat ip : Rat) + (digitsToNat fp : Rat) / tenPow fp.length)
    | _ => if ip.isEmpty then none else some ((digitsToNat ip : Rat))
  match s.data.dropWhile (fun c => c.isWhitespace) with
  | '-' :: r => (core r).map (fun q => -q)
  | '+' :: r => core r
  | cs => core cs

/-- The `$near` query object the nearby handler builds (`part_000`
lines 210-219): coordinates through `parseFloat`, `$maxDistance` through
`parseInt`.  A `none` component models `NaN`; the handler performs no
validation of its own before issuing the query. -/
structure NearQuery where
  lon : Option Rat
  lat : Option Rat
  maxDist : Option Int
deriving DecidableEq

/-- Query-object construction of the nearby handler. -/
def nearbyQuery (longitude latitude maxDistance : String) : NearQuery :=
  ⟨jsParseFloat longitude, jsParseFloat latitude, jsParseInt maxDistance⟩

/-- Body of a response under `GET /customers/...` of the second
variant. -/
inductive GeoBody where
  | list : List GeoCustomer → GeoBody
  | one : GeoCustomer → GeoBody
  | msg : String → GeoBody
  | err : String → GeoBody
deriving DecidableEq

/-- Response under `GET /customers/...` of the second variant. -/
structure GeoResp where
  status : Nat
  body : GeoBody
deriving DecidableEq

/-- `GET /customers/nearby` handler (`part_000` lines 207-225): run the
`$near` find with the built query.  When a component is `NaN` the store
rejects the malformed query and the `catch` answers 500 — the handler
has no 400 InvalidArgument branch. -/
def nearbyHandler (dist : Rat × Rat → Rat × Rat → Rat)
    (c : List GeoCustomer) (longitude latitude maxDistance : String) :
    GeoResp :=
  match nearbyQuery longitude latitude maxDistance with
  | ⟨some lo, some la, some r⟩ =>
    ⟨200, .list (nearbyFind dist c (lo, la) (r : Rat))⟩
  | _ => ⟨500, .err "geo query rejected by store"⟩

/-- `GET /customers/:name` of the second variant (`part_000` lines
63-74) over the geo view of the collection. -/
def getCustomerGeo (c : List GeoCustomer) (n : String) : GeoResp :=
  match c.find? (fun x => x.name == n) with
  | some x => ⟨200, .one x⟩
  | none => ⟨404, .msg "Customer not found"⟩

/-- The GET routes under `/customers/<segment>` of the second variant in
registration order: `/customers/:name` is registered at line 63, before
`/customers/nearby` at line 207. -/
inductive CustomerRoute where
  | byNameRoute
  | nearbyRoute
deriving DecidableEq

/-- Which single path segments each route pattern matches: a `:name`
parameter matches any segment, the literal only its own text. -/
def routeMatches : CustomerRoute → String → Bool
  | .byNameRoute, _ => true
  | .nearbyRoute, seg => seg == "nearby"

/-- Registration order of the two routes in `part_000`. -/
def customerGetRoutes : List CustomerRoute := [.byNameRoute, .nearbyRoute]

/-- Run one route's handler. -/
def runCustomerRoute (dist : Rat × Rat → Rat × Rat → Rat)
    (c : List GeoCustomer) (seg lon lat maxD : String) :
    CustomerRoute → GeoResp
  | .byNameRoute => getCustomerGeo c seg
  | .nearbyRoute => nearbyHandler dist c lon lat maxD

/-- Express dispatch of `GET /customers/<seg>`: the first registered
route whose pattern matches the segment handles the request. -/
def dispatchCustomersGet (dist : Rat × Rat → Rat × Rat → Rat)
    (c : List GeoCustomer) (seg lon lat maxD : String) : GeoResp :=
  match customerGetRoutes.find? (fun r => routeMatches r seg) with
  | some r => runCustomerRoute dist c seg lon lat maxD r
  | none => ⟨404, .msg "no matching route"⟩

/-! ### Concrete fixtures used by witnesses and counterexamples -/

/-- One stored customer record with a July 2023 purchase date. -/
def csEx : List Customer := [⟨"Ann", 100, 1688169600000, []⟩]

/-- Customers whose embedded lines sum product A to 10 and B to 5. -/
def csW3 : List Customer :=
  [⟨"c1", 0, 1688169600000, [⟨"A", 6, 0⟩, ⟨"B", 5, 0⟩]⟩,
   ⟨"c2", 0, 1688256000000, [⟨"A", 4, 0⟩]⟩]

/-- Customers with purchases on July 1-4, 2023 (the last outside the
witness query range). -/
def csW4 : List Customer :=
  [⟨"c1", 10, 1688169600000, []⟩,
   ⟨"c2", 7, 1688256000000, []⟩,
   ⟨"c3", 5, 1688169600000, []⟩,
   ⟨"c4", 9, 1688428800000, []⟩]

/-- One geo customer located exactly at the origin. -/
def originCustomer : GeoCustomer := ⟨"Alice", (0, 0)⟩

/-- Concrete stand-in for `bcrypt.compare` in witnesses: the stored
string must equal the presented password. -/
def eqCompare (password hash : String) : Bool := password == hash

/-! ## Theorems

Sanity evaluations of the embedded primitives on concrete inputs. -/

example : parseDate "2023-07-01" = some 1688169600000 := by decide
example : formatDay 1688169600000 = "2023-07-01" := by decide
example : formatDay 1688255999999 = "2023-07-01" := by decide
example : formatDay 1688256000000 = "2023-07-02" := by decide
example : parseDate "garbage" = none := by decide
example : jsParseInt "1.9" = some 1 := by decide
example : jsParseInt "abc" = none := by decide

/-! ### Field update lemmas -/

theorem getField_setField (d : Doc) (k k' : String) (v : Val) :
    getField (setField d k v) k' = if k' = k then some v else getField d k' := by
  induction d with
  | nil =>
    by_cases h : k' = k
    · subst h; simp [setField, getField]
    · have h2 : ¬(k = k') := fun e => h e.symm
      simp [setField, getField, List.find?, h, h2]
  | cons p rest ih =>
    obtain ⟨k2, v2⟩ := p
    by_cases h1 : k2 = k
    · subst h1
      by_cases h2 : k' = k2
      · subst h2; simp [setField, getField, List.find?]
      · have h3 : ¬(k2 = k') := fun e => h2 e.symm
        simp [setField, getField, List.find?, h2, h3]
    · by_cases h2 : k' = k2
      · subst h2
        simp [setField, getField, List.find?, h1]
      · have h3 : ¬(k2 = k') := fun e => h2 e.symm
        simp only [setField, if_neg h1]
        simp only [getField, List.find?] at ih ⊢
        simp [h3, ih]

theorem getField_applySet_of_notMem (b : Doc) (d : Doc) (k : String)
    (h : k ∉ b.map Prod.fst) :
    getField (applySet b d) k = getField d k := by
  induction b generalizing d with
  | nil => rfl
  | cons p ps ih =>
    simp only [List.map_cons, List.mem_cons, not_or] at h
    show getField (applySet ps (setField d p.1 p.2)) k = getField d k
    rw [ih _ h.2, getField_setField, if_neg h.1]

theorem getField_applySet_of_mem (b : Doc) (d : Doc) (k : String) (v : Val)
    (hmem : (k, v) ∈ b) (hnd : (b.map Prod.fst).Nodup) :
    getField (applySet b d) k = some v := by
  induction b generalizing d with
  | nil => cases hmem
  | cons p ps ih =>
    simp only [List.map_cons, List.nodup_cons] at hnd
    rcases List.mem_cons.mp hmem with h | h
    · subst h
      show getField (applySet ps (setField d k v)) k = some v
      rw [getField_applySet_of_notMem _ _ _ hnd.1, getField_setField, if_pos rfl]
    · exact ih _ h hnd.2

/-! ### First-match traversal lemmas -/

theorem updateFirstNamed_of_absent (n : String) (f : Doc → Doc) (c : Coll)
    (h : ∀ d ∈ c, ¬ isNamed n d) :
    updateFirstNamed n f c = (c, false) := by
  induction c with
  | nil => rfl
  | cons d c ih =>
    have hd : ¬ isNamed n d := h d (List.mem_cons_self d c)
    simp only [updateFirstNamed, if_neg hd,
      ih (fun d' hd' => h d' (List.mem_cons_of_mem d hd'))]

theorem updateFirstNamed_split (n : String) (f : Doc → Doc)
    (pre post : Coll) (d : Doc)
    (hpre : ∀ d' ∈ pre, ¬ isNamed n d') (hd : isNamed n d) :
    updateFirstNamed n f (pre ++ d :: post) = (pre ++ f d :: post, true) := by
  induction pre with
  | nil => simp [updateFirstNamed, hd]
  | cons p ps ih =>
    have hp : ¬ isNamed n p := hpre p (List.mem_cons_self p ps)
    have ih2 := ih (fun d' hd' => hpre d' (List.mem_cons_of_mem p hd'))
    simp only [List.cons_append, updateFirstNamed, if_neg hp, List.append_eq, ih2]

theorem deleteOneByName_of_absent (c : Coll) (n : String)
    (h : ∀ d ∈ c, ¬ isNamed n d) :
    deleteOneByName c n = (c, 0) := by
  induction c with
  | nil => rfl
  | cons d c ih =>
    have hd : ¬ isNamed n d := h d (List.mem_cons_self d c)
    simp only [deleteOneByName, if_neg hd,
      ih (fun d' hd' => h d' (List.mem_cons_of_mem d hd'))]

/-! ### Grouping lemmas -/

theorem mem_firstKeys [DecidableEq κ] (f : α → κ) (xs : List α) (k : κ) :
    k ∈ firstKeys f xs ↔ k ∈ xs.map f := by
  induction xs with
  | nil => simp [firstKeys]
  | cons a l ih =>
    by_cases h : k = f a
    · subst h; simp [firstKeys]
    · simp [firstKeys, List.mem_filter, h, ih]

theorem nodup_firstKeys [DecidableEq κ] (f : α → κ) (xs : List α) :
    (firstKeys f xs).Nodup := by
  induction xs with
  | nil => simp [firstKeys]
  | cons a l ih =>
    simp only [firstKeys, List.nodup_cons]
    refine ⟨?_, ih.filter _⟩
    intro hmem
    have h2 := (List.mem_filter.mp hmem).2
    simp at h2

theorem groupSum_keys [DecidableEq κ] [Add β] [Zero β] (f : α → κ)
    (g : α → β) (xs : List α) :
    (groupSum f g xs).map Prod.fst = firstKeys f xs := by
  simp [groupSum, List.map_map, Function.comp_def]

theorem mem_groupSum [DecidableEq κ] [Add β] [Zero β] (f : α → κ)
    (g : α → β) (xs : List α) (p : κ × β) :
    p ∈ groupSum f g xs ↔ p.1 ∈ firstKeys f xs ∧ p.2 = sumOver f g xs p.1 := by
  constructor
  · intro hp
    obtain ⟨k, hk, he⟩ := List.mem_map.mp hp
    cases he
    exact ⟨hk, rfl⟩
  · rintro ⟨h1, h2⟩
    have hp : p = (p.1, sumOver f g xs p.1) := by
      obtain ⟨k1, b1⟩ := p
      simpa using h2
    rw [hp]
    exact List.mem_map_of_mem _ h1

/-! ### Sorting lemmas -/

theorem insertLe_perm (le : α → α → Bool) (a : α) (l : List α) :
    (insertLe le a l).Perm (a :: l) := by
  induction l with
  | nil => exact List.Perm.refl _
  | cons b l ih =>
    by_cases h : le a b
    · simp only [insertLe, if_pos h]
      exact List.Perm.refl _
    · simp only [insertLe, if_neg h]
      exact (ih.cons b).trans (List.Perm.swap a b l)

theorem sortLe_perm (le : α → α → Bool) (l : List α) : (sortLe le l).Perm l := by
  induction l with
  | nil => exact List.Perm.refl _
  | cons a l ih => exact (insertLe_perm le a (sortLe le l)).trans (ih.cons a)

theorem pairwise_insertLe (le : α → α → Bool)
    (htot : ∀ a b, le a b = true ∨ le b a = true)
    (htrans : ∀ a b c, le a b = true → le b c = true → le a c = true)
    (a : α) (l : List α) (hl : l.Pairwise (fun x y => le x y = true)) :
    (insertLe le a l).Pairwise (fun x y => le x y = true) := by
  induction l with
  | nil => simp [insertLe]
  | cons b l ih =>
    rcases List.pairwise_cons.mp hl with ⟨hb, hl2⟩
    by_cases h : le a b
    · simp only [insertLe, if_pos h]
      refine List.pairwise_cons.mpr ⟨?_, hl⟩
      intro x hx
      rcases List.mem_cons.mp hx with rfl | hx
      · exact h
      · exact htrans a b x h (hb x hx)
    · simp only [insertLe, if_neg h]
      refine List.pairwise_cons.mpr ⟨?_, ih hl2⟩
      intro x hx
      have hx2 := (insertLe_perm le a l).mem_iff.mp hx
      rcases List.mem_cons.mp hx2 with hx3 | hx3
      · rw [hx3]
        rcases htot a b with h1 | h1
        · exact absurd h1 (by simpa using h)
        · exact h1
      · exact hb x hx3

theorem pairwise_sortLe (le : α → α → Bool)
    (htot : ∀ a b, le a b = true ∨ le b a = true)
    (htrans : ∀ a b c, le a b = true → le b c = true → le a c = true)
    (l : List α) : (sortLe le l).Pairwise (fun x y => le x y = true) := by
  induction l with
  | nil => simp [sortLe]
  | cons a l ih => exact pairwise_insertLe le htot htrans a _ ih

/-! ### Claim C1 — duplicate-name create -/

/-- Claim C1, counterexample: `POST /customers` of `index.js` performs no
duplicate check.  With a customer named `A` already stored, creating
another customer named `A` answers 201 and appends a duplicate document,
so the claimed `400 and collection unchanged` is false at this input. -/
theorem postCustomersIndex_duplicate_inserted :
    (postCustomersIndex [[("name", Val.str "A")]] [("name", Val.str "A")]).1.status = 201 ∧
    (postCustomersIndex [[("name", Val.str "A")]] [("name", Val.str "A")]).2
      = [[("name", Val.str "A")], [("name", Val.str "A")]] ∧
    ¬((postCustomersIndex [[("name", Val.str "A")]] [("name", Val.str "A")]).1.status = 400 ∧
      (postCustomersIndex [[("name", Val.str "A")]] [("name", Val.str "A")]).2
        = [[("name", Val.str "A")]]) := by
  decide

/-- Claim C1, amended: the duplicate-checked creates — `POST /products`
in both variants and `POST /customers` in the second variant — answer
400 Conflict and leave the collection unchanged when a document with the
request body's name exists; `POST /customers` of `index.js` has no such
check and always inserts with 201. -/
theorem create_duplicate_name_conflict :
    (∀ (msg : String) (c : Coll) (b : Doc),
      (∃ d ∈ c, getField d "name" = getField b "name") →
      postChecked msg c b = (⟨400, .err msg⟩, c)) ∧
    (∀ (c : Coll) (b : Doc),
      postCustomersIndex c b = (⟨201, .insertResult⟩, c ++ [b])) := by
  constructor
  · intro msg c b h
    obtain ⟨d, hd, he⟩ := h
    unfold postChecked
    cases hfind : c.find? (fun d => getField d "name" == getField b "name") with
    | some d2 => rfl
    | none =>
      exfalso
      have h2 := List.find?_eq_none.mp hfind d hd
      simp [he] at h2
  · intro c b
    rfl

/-- Claim C1, witness: a stored product named `A` plus a create request
for another `A` hits the 400 branch and the collection is unchanged. -/
theorem create_duplicate_name_conflict_witness :
    postChecked "Product with this name already exists"
      [[("name", Val.str "A"), ("price", Val.str "9")]]
      [("name", Val.str "A")]
      = (⟨400, .err "Product with this name already exists"⟩,
         [[("name", Val.str "A"), ("price", Val.str "9")]]) :=
  create_duplicate_name_conflict.1 _ _ _ (by decide)

/-! ### Claim C2 — unparseable dates are not rejected -/

/-- Claim C2, counterexample: `salesByDateRange` with an unparseable
`start` answers 200, not an InvalidArgument failure — the handler has no
guard at all. -/
theorem analyticsSales_unparseable_not_rejected :
    (analyticsSales csEx "garbage" "2023-07-03").status = 200 ∧
    (analyticsSales csEx "garbage" "2023-07-03").status ≠ 400 ∧
    (analyticsSales csEx "garbage" "2023-07-03").rows
      = salesByDateRange csEx 0 1688342400000 := by
  refine ⟨rfl, by decide, ?_⟩
  show salesByDateRange csEx (jsDateMs "garbage") (jsDateMs "2023-07-03") = _
  rw [(by decide : jsDateMs "garbage" = 0),
    (by decide : jsDateMs "2023-07-03" = 1688342400000)]

/-- Claim C2, amended: an unparseable `start` or `end` is not rejected;
`new Date` yields an Invalid Date which the driver serializes as the
epoch, and the pipeline proceeds, answering 200 — never 400. -/
theorem analyticsSales_unparseable_proceeds (cs : List Customer)
    (s e : String) (h : parseDate s = none) :
    (analyticsSales cs s e).status = 200 ∧
    (analyticsSales cs s e).status ≠ 400 ∧
    analyticsSales cs s e = ⟨200, salesByDateRange cs 0 (jsDateMs e)⟩ := by
  refine ⟨rfl, by show (200 : Nat) ≠ 400; decide, ?_⟩
  show (⟨200, salesByDateRange cs (jsDateMs s) (jsDateMs e)⟩ : SalesResp) = _
  rw [jsDateMs, h]
  rfl

/-- Claim C2, witness: the amended statement at the concrete unparseable
input `not-a-date`. -/
theorem analyticsSales_unparseable_proceeds_witness :
    (analyticsSales csEx "not-a-date" "2023-07-03").status = 200 ∧
    (analyticsSales csEx "not-a-date" "2023-07-03").status ≠ 400 ∧
    analyticsSales csEx "not-a-date" "2023-07-03"
      = ⟨200, salesByDateRange csEx 0 (jsDateMs "2023-07-03")⟩ :=
  analyticsSales_unparseable_proceeds csEx "not-a-date" "2023-07-03" (by decide)

/-! ### Claim C6 — update is a shallow merge -/

/-- Claim C6: for an existing entity (first match of the name), `PUT`
with `$set` rewrites exactly that document; in it, every field named in
the payload takes the payload's value and every other field is
unchanged — a shallow merge, not a replacement. -/
theorem updateByName_shallow_merge (okMsg nfMsg n : String)
    (pre post : Coll) (d b : Doc)
    (hpre : ∀ d' ∈ pre, ¬ isNamed n d') (hd : isNamed n d)
    (hnd : (b.map Prod.fst).Nodup) :
    updateByName okMsg nfMsg (pre ++ d :: post) n b
      = (⟨200, .msg okMsg⟩, pre ++ applySet b d :: post) ∧
    (∀ k v, (k, v) ∈ b → getField (applySet b d) k = some v) ∧
    (∀ k, k ∉ b.map Prod.fst → getField (applySet b d) k = getField d k) := by
  refine ⟨?_, fun k v hkv => getField_applySet_of_mem b d k v hkv hnd,
    fun k hk => getField_applySet_of_notMem b d k hk⟩
  unfold updateByName
  rw [updateFirstNamed_split n (applySet b) pre post d hpre hd]
  rfl

/-- Claim C6, witness: updating customer `A`, supplying only `email`,
rewrites `email` and leaves `name` untouched. -/
theorem updateByName_shallow_merge_witness :
    updateByName "Customer updated successfully" "Customer not found"
      ([] ++ [("name", Val.str "A"), ("email", Val.str "a@x")] :: []) "A"
      [("email", Val.str "b@y")]
      = (⟨200, .msg "Customer updated successfully"⟩,
         [] ++ applySet [("email", Val.str "b@y")]
           [("name", Val.str "A"), ("email", Val.str "a@x")] :: []) ∧
    (∀ k v, (k, v) ∈ [("email", Val.str "b@y")] →
      getField (applySet [("email", Val.str "b@y")]
        [("name", Val.str "A"), ("email", Val.str "a@x")]) k = some v) ∧
    (∀ k, k ∉ [("email", Val.str "b@y")].map Prod.fst →
      getField (applySet [("email", Val.str "b@y")]
          [("name", Val.str "A"), ("email", Val.str "a@x")]) k
        = getField [("name", Val.str "A"), ("email", Val.str "a@x")] k) :=
  updateByName_shallow_merge "Customer updated successfully"
    "Customer not found" "A" [] []
    [("name", Val.str "A"), ("email", Val.str "a@x")]
    [("email", Val.str "b@y")] (by decide) (by decide) (by decide)

/-! ### Claim C7 — absent name yields NotFound, no partial effect -/

/-- Claim C7: when no stored document carries the requested name, `GET`,
`PUT` and `DELETE` by name all answer 404 with their not-found message,
and the failing update and delete leave the collection exactly as it
was. -/
theorem byName_absent_notFound (okMsg nfMsg gMsg : String) (c : Coll)
    (n : String) (b : Doc) (h : ∀ d ∈ c, ¬ isNamed n d) :
    getByName gMsg c n = ⟨404, .msg gMsg⟩ ∧
    updateByName okMsg nfMsg c n b = (⟨404, .msg nfMsg⟩, c) ∧
    deleteByName okMsg nfMsg c n = (⟨404, .msg nfMsg⟩, c) := by
  have hnone : c.find? (fun d => decide (isNamed n d)) = none :=
    List.find?_eq_none.mpr (fun x hx => by simpa using h x hx)
  refine ⟨?_, ?_, ?_⟩
  · unfold getByName findOneByName
    rw [hnone]
  · unfold updateByName
    rw [updateFirstNamed_of_absent n _ c h]
    rfl
  · unfold deleteByName
    rw [deleteOneByName_of_absent c n h]
    rfl

/-- Claim C7, witness: with only customer `B` stored, the three by-name
operations on `A` all answer 404 and do not touch the collection. -/
theorem byName_absent_notFound_witness :
    getByName "Customer not found" [[("name", Val.str "B")]] "A"
      = ⟨404, .msg "Customer not found"⟩ ∧
    updateByName "Customer updated successfully" "Customer not found"
      [[("name", Val.str "B")]] "A" [("email", Val.str "x")]
      = (⟨404, .msg "Customer not found"⟩, [[("name", Val.str "B")]]) ∧
    deleteByName "Customer deleted successfully" "Customer not found"
      [[("name", Val.str "B")]] "A"
      = (⟨404, .msg "Customer not found"⟩, [[("name", Val.str "B")]]) :=
  byName_absent_notFound "Customer updated successfully"
    "Customer not found" "Customer not found"
    [[("name", Val.str "B")]] "A" [("email", Val.str "x")] (by decide)

/-! ### Claim C8 — login failures are indistinguishable -/

/-- Claim C8: a login that fails because the username is absent and a
login that fails because the hash comparison is false produce identical
responses — status 400 and the same generic body. -/
theorem login_failures_indistinguishable
    (compare : String → String → Bool) (auth : Coll)
    (u1 p1 u2 p2 : String) (d : Doc) (hs : String)
    (h1 : auth.find? (fun d => getField d "username" == some (.str u1)) = none)
    (h2 : auth.find? (fun d => getField d "username" == some (.str u2)) = some d)
    (hpw : getField d "password" = some (.str hs))
    (hcmp : compare p2 hs = false) :
    login compare auth u1 p1 = login compare auth u2 p2 ∧
    login compare auth u1 p1 = ⟨400, .err "Invalid username or password"⟩ := by
  have hl1 : login compare auth u1 p1
      = ⟨400, .err "Invalid username or password"⟩ := by
    simp [login, h1]
  have hl2 : login compare auth u2 p2
      = ⟨400, .err "Invalid username or password"⟩ := by
    simp [login, h2, hpw, hcmp]
  exact ⟨hl1.trans hl2.symm, hl1⟩

/-- Claim C8, witness: one stored credential `bob`; a login for absent
`alice` and a login for `bob` with the wrong password yield the same
400 response. -/
theorem login_failures_indistinguishable_witness :
    login eqCompare [[("username", Val.str "bob"), ("password", Val.str "pw")]]
        "alice" "whatever"
      = login eqCompare [[("username", Val.str "bob"), ("password", Val.str "pw")]]
        "bob" "wrong" ∧
    login eqCompare [[("username", Val.str "bob"), ("password", Val.str "pw")]]
        "alice" "whatever"
      = ⟨400, .err "Invalid username or password"⟩ :=
  login_failures_indistinguishable eqCompare
    [[("username", Val.str "bob"), ("password", Val.str "pw")]]
    "alice" "whatever" "bob" "wrong"
    [("username", Val.str "bob"), ("password", Val.str "pw")] "pw"
    (by decide) (by decide) (by decide) (by decide)

/-! ### Claim C9 — create / read round-trip -/

/-- Claim C9: when a duplicate-checked create succeeds (201), the new
document is appended, and an immediate `GET` by the submitted name
answers 200 with exactly the submitted document — every submitted field
comes back with its submitted value. -/
theorem create_then_getByName_roundtrip (msg nfMsg n : String)
    (c : Coll) (b : Doc)
    (hname : getField b "name" = some (.str n))
    (hok : (postChecked msg c b).1.status = 201) :
    (postChecked msg c b).2 = c ++ [b] ∧
    getByName nfMsg (postChecked msg c b).2 n = ⟨200, .doc b⟩ := by
  have hfind : c.find? (fun d => getField d "name" == getField b "name") = none := by
    cases hf : c.find? (fun d => getField d "name" == getField b "name") with
    | none => rfl
    | some d =>
      exfalso
      unfold postChecked at hok
      rw [hf] at hok
      simp at hok
  have hsnd : (postChecked msg c b).2 = c ++ [b] := by
    unfold postChecked
    rw [hfind]
  refine ⟨hsnd, ?_⟩
  rw [hsnd]
  unfold getByName findOneByName
  have hcnone : c.find? (fun d => decide (isNamed n d)) = none := by
    refine List.find?_eq_none.mpr (fun x hx => ?_)
    have h2 := List.find?_eq_none.mp hfind x hx
    simp [hname] at h2
    simp [isNamed, h2]
  rw [List.find?_append, hcnone]
  simp [isNamed, hname]

/-- Claim C9, witness: creating product `P` into a store holding only
`Q` succeeds, and reading `P` back returns the submitted document. -/
theorem create_then_getByName_roundtrip_witness :
    (postChecked "Product with this name already exists"
      [[("name", Val.str "Q")]]
      [("name", Val.str "P"), ("category", Val.str "Toys")]).2
      = [[("name", Val.str "Q")]]
        ++ [[("name", Val.str "P"), ("category", Val.str "Toys")]] ∧
    getByName "Product not found"
      (postChecked "Product with this name already exists"
        [[("name", Val.str "Q")]]
        [("name", Val.str "P"), ("category", Val.str "Toys")]).2 "P"
      = ⟨200, .doc [("name", Val.str "P"), ("category", Val.str "Toys")]⟩ :=
  create_then_getByName_roundtrip "Product with this name already exists"
    "Product not found" "P" [[("name", Val.str "Q")]]
    [("name", Val.str "P"), ("category", Val.str "Toys")]
    (by decide) (by decide)

/-! ### Combined group-then-sort lemmas -/

theorem mem_sortLe_groupSum [DecidableEq κ] [Add β] [Zero β]
    (le : κ × β → κ × β → Bool) (f : α → κ) (g : α → β) (xs : List α)
    (p : κ × β) :
    p ∈ sortLe le (groupSum f g xs) ↔
      p.1 ∈ xs.map f ∧ p.2 = sumOver f g xs p.1 := by
  rw [(sortLe_perm le _).mem_iff, mem_groupSum, mem_firstKeys]

theorem nodup_keys_sortLe_groupSum [DecidableEq κ] [Add β] [Zero β]
    (le : κ × β → κ × β → Bool) (f : α → κ) (g : α → β) (xs : List α) :
    ((sortLe le (groupSum f g xs)).map Prod.fst).Nodup := by
  have hperm := (sortLe_perm le (groupSum f g xs)).map Prod.fst
  exact hperm.nodup_iff.mpr (groupSum_keys f g xs ▸ nodup_firstKeys f xs)

theorem key_mem_sortLe_groupSum [DecidableEq κ] [Add β] [Zero β]
    (le : κ × β → κ × β → Bool) (f : α → κ) (g : α → β) (xs : List α)
    (k : κ) (h : k ∈ xs.map f) :
    k ∈ (sortLe le (groupSum f g xs)).map Prod.fst := by
  have hperm := (sortLe_perm le (groupSum f g xs)).map Prod.fst
  rw [hperm.mem_iff, groupSum_keys, mem_firstKeys]
  exact h

/-! ### Claim C3 — top products pipeline -/

/-- Claim C3: `topProducts` emits at most five rows; each row's
`totalSold` is the sum of the quantities of the lines bearing its
product name across all customers and its name occurs among the
flattened lines; rows are sorted by descending `totalSold` with distinct
names; and whenever one product's quantities sum strictly higher than
another's (e.g. 10 versus 5), every appearance of the smaller-total
product is preceded by the larger-total one. -/
theorem topProducts_spec (cs : List Customer) :
    (topProducts cs).length ≤ 5 ∧
    (topProducts cs).Pairwise (fun x y => y.2 ≤ x.2) ∧
    (∀ p ∈ topProducts cs,
      p.2 = totalQty cs p.1 ∧ p.1 ∈ (allLines cs).map Line.name) ∧
    ((topProducts cs).map Prod.fst).Nodup ∧
    (∀ (a b : String) (qa qb : Int), qb < qa → qa ≠ 0 →
      totalQty cs a = qa → totalQty cs b = qb →
      ∀ (j : Nat) (hj : j < (topProducts cs).length),
        (topProducts cs)[j] = (b, qb) →
        ∃ (i : Nat) (hi : i < (topProducts cs).length),
          i < j ∧ (topProducts cs)[i] = (a, qa)) := by
  have htot : ∀ x y : String × Int,
      (fun x y : String × Int => decide (y.2 ≤ x.2)) x y = true ∨
      (fun x y : String × Int => decide (y.2 ≤ x.2)) y x = true := by
    intro x y
    simp only [decide_eq_true_eq]
    exact le_total y.2 x.2
  have htrans : ∀ x y z : String × Int,
      (fun x y : String × Int => decide (y.2 ≤ x.2)) x y = true →
      (fun x y : String × Int => decide (y.2 ≤ x.2)) y z = true →
      (fun x y : String × Int => decide (y.2 ≤ x.2)) x z = true := by
    intro x y z hxy hyz
    simp only [decide_eq_true_eq] at hxy hyz ⊢
    exact le_trans hyz hxy
  have hpwB := pairwise_sortLe (fun x y : String × Int => decide (y.2 ≤ x.2))
    htot htrans (groupSum Line.name Line.quantity (allLines cs))
  refine ⟨?_, ?_, ?_, ?_, ?_⟩
  · show ((sortLe _ _).take 5).length ≤ 5
    rw [List.length_take]
    exact min_le_left _ _
  · have hsub : List.Sublist (topProducts cs)
        (sortLe (fun x y : String × Int => decide (y.2 ≤ x.2))
          (groupSum Line.name Line.quantity (allLines cs))) :=
      List.take_sublist _ _
    exact ((hpwB.sublist hsub).imp fun h => of_decide_eq_true h)
  · intro p hp
    have hp2 := List.mem_of_mem_take (n := 5) hp
    rw [mem_sortLe_groupSum] at hp2
    exact ⟨hp2.2, hp2.1⟩
  · show ((sortLe _ _).take 5).map Prod.fst |>.Nodup
    rw [List.map_take]
    exact (nodup_keys_sortLe_groupSum _ _ _ _).sublist (List.take_sublist _ _)
  · intro a b qa qb hlt h0 ha hb j hj hjb
    have hamem : a ∈ (allLines cs).map Line.name := by
      by_contra hno
      have hfil : (allLines cs).filter (fun l => decide (Line.name l = a)) = [] := by
        refine List.filter_eq_nil_iff.mpr (fun x hx => ?_)
        simp only [decide_eq_true_eq]
        intro he
        exact hno (List.mem_map.mpr ⟨x, hx, he⟩)
      have hz : totalQty cs a = 0 := by
        unfold totalQty sumOver
        rw [hfil]
        rfl
      rw [ha] at hz
      exact h0 hz
    have hag : (a, qa) ∈ sortLe (fun x y : String × Int => decide (y.2 ≤ x.2))
        (groupSum Line.name Line.quantity (allLines cs)) :=
      (mem_sortLe_groupSum _ _ _ _ _).mpr ⟨hamem, ha.symm⟩
    obtain ⟨i, hi, hia⟩ := List.mem_iff_getElem.mp hag
    have hjs : j < (sortLe (fun x y : String × Int => decide (y.2 ≤ x.2))
        (groupSum Line.name Line.quantity (allLines cs))).length := by
      have h5 : (topProducts cs).length ≤
          (sortLe (fun x y : String × Int => decide (y.2 ≤ x.2))
            (groupSum Line.name Line.quantity (allLines cs))).length := by
        show ((sortLe _ _).take 5).length ≤ _
        rw [List.length_take]
        exact min_le_right _ _
      exact lt_of_lt_of_le hj h5
    have hjb2 : (sortLe (fun x y : String × Int => decide (y.2 ≤ x.2))
        (groupSum Line.name Line.quantity (allLines cs)))[j] = (b, qb) := by
      have hget : (topProducts cs)[j] =
          (sortLe (fun x y : String × Int => decide (y.2 ≤ x.2))
            (groupSum Line.name Line.quantity (allLines cs)))[j] :=
        List.getElem_take _
      rw [← hget]
      exact hjb
    have hij : i < j := by
      rcases Nat.lt_trichotomy i j with h | h | h
      · exact h
      · exfalso
        subst h
        have hcon : (a, qa) = (b, qb) := hia.symm.trans hjb2
        have hq := congrArg Prod.snd hcon
        simp only at hq
        omega
      · exfalso
        have hp := (List.pairwise_iff_getElem.mp hpwB) j i hjs hi h
        rw [hia, hjb2] at hp
        simp only [decide_eq_true_eq] at hp
        omega
    have hlt2 : i < (topProducts cs).length := lt_trans hij hj
    refine ⟨i, hlt2, hij, ?_⟩
    have hget : (topProducts cs)[i] =
        (sortLe (fun x y : String × Int => decide (y.2 ≤ x.2))
          (groupSum Line.name Line.quantity (allLines cs)))[i] :=
      List.getElem_take _
    rw [hget]
    exact hia

/-- Claim C3, witness: on a store where product A's quantities sum to 10
and B's to 5, B's appearance at position 1 forces A at position 0. -/
theorem topProducts_spec_witness :
    ∃ (i : Nat) (hi : i < (topProducts csW3).length),
      i < 1 ∧ (topProducts csW3)[i] = ("A", 10) :=
  (topProducts_spec csW3).2.2.2.2 "A" "B" 10 5 (by decide) (by decide)
    (by decide) (by decide) 1 (by decide) (by decide)

/-! ### Claim C4 — sales by date range -/

/-- Claim C4: for parseable `start`/`end`, the handler answers 200 with
the pipeline's rows; each row's value is the sum of the `total` fields
of exactly the records whose date lies in the closed interval
`[start, end]` and falls on that row's calendar day; every in-range
record's day appears as a row key; rows are sorted ascending by the
`YYYY-MM-DD` day string, each day at most once. -/
theorem salesByDateRange_spec (cs : List Customer) (s e : String)
    (sms ems : Int)
    (hs : parseDate s = some sms) (he : parseDate e = some ems) :
    analyticsSales cs s e = ⟨200, salesByDateRange cs sms ems⟩ ∧
    (∀ p ∈ salesByDateRange cs sms ems,
      p.2 = dayTotal cs sms ems p.1 ∧
      ∃ c ∈ cs, (sms ≤ c.date ∧ c.date ≤ ems) ∧ formatDay c.date = p.1) ∧
    (∀ c ∈ cs, sms ≤ c.date → c.date ≤ ems →
      formatDay c.date ∈ (salesByDateRange cs sms ems).map Prod.fst) ∧
    (salesByDateRange cs sms ems).Pairwise (fun x y => x.1 ≤ y.1) ∧
    ((salesByDateRange cs sms ems).map Prod.fst).Nodup := by
  refine ⟨?_, ?_, ?_, ?_, ?_⟩
  · show (⟨200, salesByDateRange cs (jsDateMs s) (jsDateMs e)⟩ : SalesResp) = _
    rw [jsDateMs, jsDateMs, hs, he]
    rfl
  · intro p hp
    have hp2 := (mem_sortLe_groupSum
        (fun x y : String × Rat => decide (x.1 ≤ y.1))
        (fun c : Customer => formatDay c.date) Customer.total
        (cs.filter (fun c => decide (sms ≤ c.date ∧ c.date ≤ ems))) p).mp hp
    refine ⟨hp2.2, ?_⟩
    obtain ⟨c, hcm, hfd⟩ := List.mem_map.mp hp2.1
    have hcf := List.mem_filter.mp hcm
    exact ⟨c, hcf.1, of_decide_eq_true hcf.2, hfd⟩
  · intro c hc h1 h2
    refine key_mem_sortLe_groupSum
      (fun x y : String × Rat => decide (x.1 ≤ y.1))
      (fun c : Customer => formatDay c.date) Customer.total
      (cs.filter (fun c => decide (sms ≤ c.date ∧ c.date ≤ ems)))
      (formatDay c.date) ?_
    refine List.mem_map.mpr ⟨c, List.mem_filter.mpr ⟨hc, ?_⟩, rfl⟩
    simp only [decide_eq_true_eq]
    exact ⟨h1, h2⟩
  · have htot : ∀ x y : String × Rat,
        (fun x y : String × Rat => decide (x.1 ≤ y.1)) x y = true ∨
        (fun x y : String × Rat => decide (x.1 ≤ y.1)) y x = true := by
      intro x y
      simp only [decide_eq_true_eq]
      exact le_total x.1 y.1
    have htrans : ∀ x y z : String × Rat,
        (fun x y : String × Rat => decide (x.1 ≤ y.1)) x y = true →
        (fun x y : String × Rat => decide (x.1 ≤ y.1)) y z = true →
        (fun x y : String × Rat => decide (x.1 ≤ y.1)) x z = true := by
      intro x y z hxy hyz
      simp only [decide_eq_true_eq] at hxy hyz ⊢
      exact le_trans hxy hyz
    exact (pairwise_sortLe _ htot htrans _).imp fun h => of_decide_eq_true h
  · exact nodup_keys_sortLe_groupSum _ _ _ _

/-- Claim C4, witness: the query `[2023-07-01, 2023-07-03]` over four
records (one dated outside the range) — the handler answers 200 with the
pipeline rows, every in-range record's day is a key, and the rows are
sorted ascending by day. -/
theorem salesByDateRange_spec_witness :
    analyticsSales csW4 "2023-07-01" "2023-07-03"
      = ⟨200, salesByDateRange csW4 1688169600000 1688342400000⟩ ∧
    (salesByDateRange csW4 1688169600000 1688342400000).Pairwise
      (fun x y => x.1 ≤ y.1) ∧
    ((salesByDateRange csW4 1688169600000 1688342400000).map Prod.fst).Nodup :=
  ⟨(salesByDateRange_spec csW4 "2023-07-01" "2023-07-03"
      1688169600000 1688342400000 (by decide) (by decide)).1,
   (salesByDateRange_spec csW4 "2023-07-01" "2023-07-03"
      1688169600000 1688342400000 (by decide) (by decide)).2.2.2.1,
   (salesByDateRange_spec csW4 "2023-07-01" "2023-07-03"
      1688169600000 1688342400000 (by decide) (by decide)).2.2.2.2⟩

/-! ### Character lemmas for the `parseInt` claim -/

theorem digit_not_ws (c : Char) (h : c.isDigit = true) :
    c.isWhitespace = false := by
  by_contra hw
  rw [Bool.not_eq_false] at hw
  simp only [Char.isWhitespace, Bool.or_eq_true, decide_eq_true_eq] at hw
  rcases hw with ((h1 | h1) | h1) | h1 <;> subst h1 <;>
    exact absurd h (by decide)

theorem digitsPrefix_append_dot (ds rest : List Char)
    (h : ds.all Char.isDigit = true) :
    digitsPrefix (ds ++ '.' :: rest) = ds := by
  induction ds with
  | nil =>
    simp [digitsPrefix, show ('.'.isDigit) = false from rfl]
  | cons c t ih =>
    simp only [List.all_cons, Bool.and_eq_true] at h
    simp [digitsPrefix, h.1, ih h.2]

/-! ### Claim C5 — the nearby route is shadowed -/

/-- Claim C5 evaluation: `/customers/:name` is registered before
`/customers/nearby`, and a `:name` segment matches anything, so every
`GET /customers/nearby` request is handled by the by-name lookup for the
literal name `nearby` — the geo handler is dead code.  Concretely, with
one customer exactly at the query point, the served response is 404
`Customer not found`, while the shadowed `$near` find would have
answered with that customer. -/
theorem nearby_route_shadowed :
    (∀ (dist : Rat × Rat → Rat × Rat → Rat) (c : List GeoCustomer)
      (lon lat maxD : String),
      dispatchCustomersGet dist c "nearby" lon lat maxD
        = getCustomerGeo c "nearby") ∧
    dispatchCustomersGet sqDist [originCustomer] "nearby" "0" "0" "1000"
      = ⟨404, .msg "Customer not found"⟩ ∧
    nearbyFind sqDist [originCustomer] (0, 0) 1000 = [originCustomer] := by
  refine ⟨fun dist c lon lat maxD => rfl, by decide, ?_⟩
  have hle : sqDist (0, 0) originCustomer.location ≤ 1000 := by
    norm_num [sqDist, originCustomer]
  have hd : (fun x : GeoCustomer =>
      decide (sqDist (0, 0) x.location ≤ 1000)) originCustomer = true :=
    decide_eq_true hle
  unfold nearbyFind
  rw [List.filter_cons, if_pos hd, List.filter_nil]
  rfl

/-! ### Claim C10 — maxDistance coercion by parseInt -/

/-- Claim C10: the nearby handler builds its `$near` query with
`parseInt(maxDistance)`: a fractional radius string is truncated toward
zero (`1.9` queries with radius 1; in general a digit string followed by
a fractional part parses to the integer part's value), a non-numeric
radius becomes `NaN` inside the query object, and the handler never
answers 400 — no InvalidArgument branch exists. -/
theorem nearby_maxDistance_parseInt :
    (∀ lon lat : String, (nearbyQuery lon lat "1.9").maxDist = some 1) ∧
    (∀ lon lat : String, (nearbyQuery lon lat "abc").maxDist = none) ∧
    (∀ (ds rest : List Char), ds ≠ [] → ds.all Char.isDigit = true →
      jsParseInt ⟨ds ++ '.' :: rest⟩ = some ((digitsToNat ds : Nat) : Int)) ∧
    (∀ (dist : Rat × Rat → Rat × Rat → Rat) (c : List GeoCustomer)
      (lon lat maxD : String),
      (nearbyHandler dist c lon lat maxD).status ≠ 400) := by
  refine ⟨?_, ?_, ?_, ?_⟩
  · intro lon lat
    show jsParseInt "1.9" = some 1
    decide
  · intro lon lat
    show jsParseInt "abc" = none
    decide
  · intro ds rest hne hall
    obtain ⟨c, t, rfl⟩ := List.exists_cons_of_ne_nil hne
    have hc : c.isDigit = true := by
      simp only [List.all_cons, Bool.and_eq_true] at hall
      exact hall.1
    have hws : c.isWhitespace = false := digit_not_ws c hc
    have hm : c ≠ '-' := fun e => by rw [e] at hc; exact absurd hc (by decide)
    have hp2 : c ≠ '+' := fun e => by rw [e] at hc; exact absurd hc (by decide)
    have hdp : digitsPrefix ((c :: t) ++ '.' :: rest) = c :: t :=
      digitsPrefix_append_dot _ _ (by simpa using hall)
    show jsParseIntSigned
        (((c :: t) ++ '.' :: rest).dropWhile (fun c => c.isWhitespace)) = _
    rw [List.cons_append, List.dropWhile_cons, if_neg (by simp [hws])]
    rw [List.cons_append] at hdp
    simp only [jsParseIntSigned, if_neg hm, if_neg hp2, jsParseIntDigits, hdp]
    simp
  · intro dist c lon lat maxD
    unfold nearbyHandler nearbyQuery
    cases jsParseFloat lon <;> cases jsParseFloat lat <;>
      cases jsParseInt maxD <;> simp

/-- Claim C10, witness: `maxDistance=1.9` queries with radius 1,
`maxDistance=abc` puts `NaN` in the query, `42.9` parses to 42, and a
handler call with a non-numeric radius does not answer 400. -/
theorem nearby_maxDistance_parseInt_witness :
    (nearbyQuery "0" "0" "1.9").maxDist = some 1 ∧
    (nearbyQuery "0" "0" "abc").maxDist = none ∧
    jsParseInt ⟨['4', '2'] ++ '.' :: ['9']⟩
      = some ((digitsToNat ['4', '2'] : Nat) : Int) ∧
    (nearbyHandler sqDist [] "0" "0" "abc").status ≠ 400 :=
  ⟨nearby_maxDistance_parseInt.1 "0" "0",
   nearby_maxDistance_parseInt.2.1 "0" "0",
   nearby_maxDistance_parseInt.2.2.1 ['4', '2'] ['9'] (by decide) (by decide),
   nearby_maxDistance_parseInt.2.2.2 sqDist [] "0" "0" "abc"⟩

end ECom
